import Mathlib

/-!
Shallow embedding of `src/gh-smartsheet.py`, a one-directional GitHub→Smartsheet
issue synchronizer.  Pure data transformations (index building, reconciliation,
batching, response-shape parsing) are embedded as executable Lean functions;
the HTTP transport is modelled as an oracle assigning a status code to each
request, and the GitHub client as a fetch-counting state.
-/

namespace GhSmartsheet

/-- Python values as they occur in the script's JSON handling: strings,
integers, booleans and `None`. -/
inductive PyVal where
  | vStr (s : String)
  | vInt (n : Int)
  | vBool (b : Bool)
  | vNone
  deriving DecidableEq, Repr

/-- Python `str()` on the values above (`str(None) = "None"`,
`str(True) = "True"`). -/
def pyStr : PyVal → String
  | .vStr s => s
  | .vInt n => toString n
  | .vBool b => if b then "True" else "False"
  | .vNone => "None"

/-- `int(s)` on a string: optional sign then digits (whitespace stripped),
`none` when Python would raise `ValueError`. -/
def pyStrToInt? (s : String) : Option Int :=
  let t := s.trim
  let core := if t.startsWith "-" ∨ t.startsWith "+" then t.drop 1 else t
  if core.length > 0 ∧ core.all Char.isDigit then
    some (if t.startsWith "-" then -(core.toNat!) else (core.toNat! : Int))
  else
    none

/-- Python `int(v)`; `none` models the `TypeError`/`ValueError` caught in
`build_sheet_index` (`int` of `None` raises `TypeError`, of a non-numeric
string `ValueError`; `int(True) = 1`). -/
def pyInt? : PyVal → Option Int
  | .vInt n => some n
  | .vBool b => some (if b then 1 else 0)
  | .vStr s => pyStrToInt? s
  | .vNone => none

/-- A sheet cell as read from the service: `columnId` may be absent, and the
`value` / `displayValue` keys may each be present (possibly holding `None`,
collapsed into `vNone`) or absent. -/
structure Cell where
  columnId : Option Int
  value : Option PyVal
  displayValue : Option PyVal
  deriving DecidableEq, Repr

/-- `cell.get("value", cell.get("displayValue"))`: the `value` key's content
when the key is present, else the `displayValue` key's content, else `None`. -/
def cell_value (c : Cell) : PyVal :=
  match c.value with
  | some v => v
  | none => c.displayValue.getD .vNone

/-- A sheet row: its service-assigned id and its cells. -/
structure Row where
  id : Int
  cells : List Cell
  deriving DecidableEq, Repr

/-- The `col_ids` mapping from the three managed logical column names to
service column identifiers. -/
structure ColIds where
  issueNumber : Int
  title : Int
  status : Int
  deriving DecidableEq, Repr

/-- The issue-number half of a reconciliation key: an `Int` when `int(num)`
parses, else the string form. -/
inductive NumKey where
  | int (n : Int)
  | str (s : String)
  deriving DecidableEq, Repr

/-- Reconciliation key `(issue number, title)`. -/
abbrev Key := NumKey × String

/-- The value stored in the sheet index for one key: the row id and the
status cell's effective value (`vNone` when the status cell was absent). -/
structure Entry where
  rowId : Int
  status : PyVal
  deriving DecidableEq, Repr

/-- The per-row `for c in row.get("cells", [])` loop of `build_sheet_index`:
an if/elif chain filling `num`, `title`, `status` (each initialised to
Python `None`, i.e. `vNone`; later cells for the same column overwrite). -/
def extractRow (ids : ColIds) (cells : List Cell) : PyVal × PyVal × PyVal :=
  cells.foldl
    (fun acc c =>
      match c.columnId with
      | some cid =>
        if cid = ids.issueNumber then (cell_value c, acc.2.1, acc.2.2)
        else if cid = ids.title then (acc.1, cell_value c, acc.2.2)
        else if cid = ids.status then (acc.1, acc.2.1, cell_value c)
        else acc
      | none => acc)
    (.vNone, .vNone, .vNone)

/-- Normalize the issue-number cell value to an index key component:
`int(num)` when parseable, else `str(num)`. -/
def numKeyOf (v : PyVal) : NumKey :=
  match pyInt? v with
  | some n => .int n
  | none => .str (pyStr v)

/-- One row's contribution to the index: `none` when the row is skipped
(`num is None or title is None`), else its key and entry. -/
def rowToEntry (ids : ColIds) (r : Row) : Option (Key × Entry) :=
  let e := extractRow ids r.cells
  if e.1 ≠ .vNone ∧ e.2.1 ≠ .vNone then
    some ((numKeyOf e.1, pyStr e.2.1), ⟨r.id, e.2.2⟩)
  else
    none

/-- `index[(num_key, str(title))] = {...}`: one loop iteration of
`build_sheet_index` — a dict assignment overwriting any earlier binding of
the same key, or a no-op for a skipped row. -/
def indexStep (ids : ColIds) (idx : Key → Option Entry) (r : Row) :
    Key → Option Entry :=
  match rowToEntry ids r with
  | some (k, e) => fun k' => if k' = k then some e else idx k'
  | none => idx

/-- `build_sheet_index(rows, col_ids)`: builds the `(number, title)` →
`{rowId, status}` lookup; dict assignment makes later rows overwrite
earlier ones for the same key. -/
def build_sheet_index (rows : List Row) (ids : ColIds) : Key → Option Entry :=
  rows.foldl (indexStep ids) (fun _ => none)

/-- A normalized issue record `{number, title, state}`. -/
structure Issue where
  number : Int
  title : String
  state : String
  deriving DecidableEq, Repr

/-- `key = (it["number"], it["title"])`: the issue number enters the tuple as
a Python `int`. -/
def issueKey (it : Issue) : Key := (.int it.number, it.title)

/-- A cell in a write payload: `{"columnId": ..., "value": ...}`. -/
structure RowCell where
  columnId : Int
  value : PyVal
  deriving DecidableEq, Repr

/-- An element of `to_add`: `{"cells": [...]}`. -/
structure InsertRow where
  cells : List RowCell
  deriving DecidableEq, Repr

/-- An element of `to_update`: `{"id": ..., "cells": [...]}`. -/
structure UpdateRow where
  id : Int
  cells : List RowCell
  deriving DecidableEq, Repr

/-- The transient plan of one run: rows to insert and rows to update. -/
structure SyncPlan where
  toInsert : List InsertRow
  toUpdate : List UpdateRow
  deriving DecidableEq, Repr

/-- The row appended to `to_add` for an issue absent from the index: the
three managed cells, with the issue's current state as the Status value. -/
def mkInsertRow (ids : ColIds) (it : Issue) : InsertRow :=
  ⟨[⟨ids.issueNumber, .vInt it.number⟩,
    ⟨ids.title, .vStr it.title⟩,
    ⟨ids.status, .vStr it.state⟩]⟩

/-- The entry appended to `to_update`: the row id and only the Status cell. -/
def mkUpdateRow (ids : ColIds) (rowId : Int) (state : String) : UpdateRow :=
  ⟨rowId, [⟨ids.status, .vStr state⟩]⟩

/-- Python `str.lower()` (ASCII case folding, character by character). -/
def pyLower (s : String) : String :=
  ⟨s.data.map Char.toLower⟩

/-- `str(existing_status).lower() != str(it["state"]).lower()`: the guard
deciding whether a found row gets a status update. -/
def status_differs (st : PyVal) (state : String) : Bool :=
  pyLower (pyStr st) ≠ pyLower state

/-- One iteration of the reconciliation loop in `add_issue_rows`. -/
def planStep (ids : ColIds) (index : Key → Option Entry) (acc : SyncPlan)
    (it : Issue) : SyncPlan :=
  match index (issueKey it) with
  | none => { acc with toInsert := acc.toInsert ++ [mkInsertRow ids it] }
  | some current =>
    if status_differs current.status it.state then
      { acc with toUpdate := acc.toUpdate ++ [mkUpdateRow ids current.rowId it.state] }
    else acc

/-- The reconciliation phase of `add_issue_rows`: classify every issue
against the pre-built index into `to_add` / `to_update` / no-op. -/
def plan (ids : ColIds) (issues : List Issue) (index : Key → Option Entry) :
    SyncPlan :=
  issues.foldl (planStep ids index) ⟨[], []⟩

/-- Fuel-indexed worker for `chunk`; with `fuel ≥ l.length` and a positive
slice width it computes the successive slices `seq[i:i+n]`. -/
def chunkFuel (n : Nat) : Nat → List α → List (List α)
  | _, [] => []
  | 0, _ :: _ => []
  | fuel + 1, a :: rest =>
    (a :: rest).take n :: chunkFuel n fuel ((a :: rest).drop n)

/-- The `chunk(seq, n)` generator of `add_issue_rows`: successive slices
`seq[i:i+n]` for `i = 0, n, 2n, ...`. -/
def chunkList (n : Nat) (l : List α) : List (List α) :=
  chunkFuel n l.length l

/-- `requests.Response.raise_for_status()` raises for client and server
error codes, i.e. `400 ≤ status < 600`. -/
def is_http_error (s : Nat) : Bool := 400 ≤ s ∧ s < 600

/-- The exception surfaced by `raise_for_status()`: it carries the HTTP
status of the failing response (and the URL), but nothing about rows
committed by earlier requests. -/
structure HttpError where
  status : Nat
  deriving DecidableEq, Repr

/-- Issue the batches of one phase sequentially; `status i` is the HTTP
status returned for the `i`-th request of the run.  Returns the number of
rows committed by successful requests and the first error, if any; the
loop stops at the first `raise_for_status()` failure. -/
def runBatches (status : Nat → Nat) : List (List α) → Nat → Nat × Option HttpError
  | [], _ => (0, none)
  | b :: bs, i =>
    if is_http_error (status i) then (0, some ⟨status i⟩)
    else
      let r := runBatches status bs (i + 1)
      (b.length + r.1, r.2)

/-- The write phase of `add_issue_rows`: post the insert batches, then (only
if all succeeded) put the update batches.  Result: rows committed by insert
requests, rows committed by update requests, and the surfaced error if a
batch failed. -/
def apply_writes (status : Nat → Nat) (batch_size : Nat) (p : SyncPlan) :
    Nat × Nat × Option HttpError :=
  let ib := chunkList batch_size p.toInsert
  let r1 := runBatches status ib 0
  match r1.2 with
  | some e => (r1.1, 0, some e)
  | none =>
    let r2 := runBatches status (chunkList batch_size p.toUpdate) ib.length
    (r1.1, r2.1, r2.2)

/-- JSON values, for the column-create response handled by `extract_id`. -/
inductive Json where
  | jnull
  | jbool (b : Bool)
  | jnum (n : Int)
  | jstr (s : String)
  | jarr (xs : List Json)
  | jobj (kvs : List (String × Json))
  deriving Repr

/-- Key lookup in a JSON object (`"k" in d` / `d["k"]`). -/
def jlookup : List (String × Json) → String → Option Json
  | [], _ => none
  | (k, v) :: rest, key => if k = key then some v else jlookup rest key

/-- The Python exceptions `extract_id` can raise: the explicit
`ValueError` (the SchemaError of the design) and the implicit
`IndexError` / `KeyError` / `TypeError` from subscripting. -/
inductive PyError where
  | valueError
  | indexError
  | keyError
  | typeError
  deriving DecidableEq, Repr

/-- `extract_id(resp_json)` from `get_or_create_columns`: unwrap the created
column's `id` from a `result` envelope (object or first-of-list) or from the
object directly; raise `ValueError` when the response is not a dict carrying
`result` or `id`.  Subscripting a malformed envelope raises `IndexError`
(empty list), `KeyError` (object without `id`) or `TypeError` (non-dict). -/
def extract_id (resp : Json) : Except PyError Json :=
  match resp with
  | .jobj kvs =>
    match jlookup kvs "result" with
    | some res =>
      match res with
      | .jarr [] => .error .indexError
      | .jarr (x :: _) =>
        match x with
        | .jobj kvs2 =>
          match jlookup kvs2 "id" with
          | some v => .ok v
          | none => .error .keyError
        | _ => .error .typeError
      | .jobj kvs2 =>
        match jlookup kvs2 "id" with
        | some v => .ok v
        | none => .error .keyError
      | _ => .error .typeError
    | none =>
      match jlookup kvs "id" with
      | some v => .ok v
      | none => .error .valueError
  | _ => .error .valueError

/-- What one issue contributes to `to_add`: an insert row when its key is
absent from the index, nothing otherwise. -/
def insSel (ids : ColIds) (index : Key → Option Entry) (it : Issue) :
    Option InsertRow :=
  match index (issueKey it) with
  | none => some (mkInsertRow ids it)
  | some _ => none

/-- What one issue contributes to `to_update`: a status patch when its key is
present with a case-insensitively different status, nothing otherwise. -/
def updSel (ids : ColIds) (index : Key → Option Entry) (it : Issue) :
    Option UpdateRow :=
  match index (issueKey it) with
  | none => none
  | some e =>
    if status_differs e.status it.state then
      some (mkUpdateRow ids e.rowId it.state)
    else none

/-- The GitHub client as a state: how many full-list fetches
(`repo.get_issues(state="all")`) have been issued so far. -/
def get_issues (repo : List Issue) (fetches : Nat) : List Issue × Nat :=
  (repo, fetches + 1)

/-- `collect_github_issues(token)`: one loop printing every issue, then a
second loop building the `{number, title, state}` records — each loop calls
`repo.get_issues(state="all")` afresh. -/
def collect_github_issues (repo : List Issue) (fetches : Nat) :
    List Issue × Nat :=
  let r1 := get_issues repo fetches
  let r2 := get_issues repo r1.2
  (r2.1.map (fun it => ⟨it.number, it.title, it.state⟩), r2.2)

/-! ### Structural lemmas -/

lemma plan_foldl (ids : ColIds) (index : Key → Option Entry)
    (issues : List Issue) (acc : SyncPlan) :
    issues.foldl (planStep ids index) acc =
      ⟨acc.toInsert ++ issues.filterMap (insSel ids index),
       acc.toUpdate ++ issues.filterMap (updSel ids index)⟩ := by
  induction issues generalizing acc with
  | nil => simp
  | cons it rest ih =>
    simp only [List.foldl_cons, List.filterMap_cons]
    rw [ih]
    unfold planStep insSel updSel
    cases h : index (issueKey it) with
    | none => simp
    | some e =>
      by_cases hd : status_differs e.status it.state
      · simp [hd]
      · simp [hd]

/-- The reconciliation loop, expressed per issue: `to_add` and `to_update`
collect each issue's contribution in order. -/
lemma plan_eq (ids : ColIds) (index : Key → Option Entry) (issues : List Issue) :
    plan ids issues index =
      ⟨issues.filterMap (insSel ids index), issues.filterMap (updSel ids index)⟩ := by
  simpa [plan] using plan_foldl ids index issues ⟨[], []⟩

lemma mkInsertRow_inj (ids : ColIds) {it it' : Issue}
    (h : mkInsertRow ids it = mkInsertRow ids it') : it = it' := by
  cases it; cases it'
  simp only [mkInsertRow, InsertRow.mk.injEq, List.cons.injEq,
    RowCell.mk.injEq, PyVal.vInt.injEq, PyVal.vStr.injEq] at h
  simp_all

lemma mkUpdateRow_inj (ids : ColIds) {r1 r2 : Int} {s1 s2 : String}
    (h : mkUpdateRow ids r1 s1 = mkUpdateRow ids r2 s2) : r1 = r2 ∧ s1 = s2 := by
  simp only [mkUpdateRow, UpdateRow.mk.injEq, List.cons.injEq,
    RowCell.mk.injEq, PyVal.vStr.injEq] at h
  exact ⟨h.1, h.2.1.2⟩

lemma count_filterMap_eq_one [DecidableEq α] [DecidableEq β]
    (f : α → Option β) (b : β) (l : List α) (a : α)
    (ha : a ∈ l) (hfa : f a = some b)
    (huniq : ∀ a' ∈ l, f a' = some b → a' = a)
    (hcount : l.count a = 1) :
    (l.filterMap f).count b = 1 := by
  induction l with
  | nil => cases ha
  | cons x xs ih =>
    by_cases hx : x = a
    · subst hx
      have hxs : x ∉ xs := by
        rw [List.count_cons_self x xs] at hcount
        exact List.count_eq_zero.mp (by omega)
      have hz : (xs.filterMap f).count b = 0 := by
        rw [List.count_eq_zero]
        intro hb
        obtain ⟨a', ha', hfa'⟩ := List.mem_filterMap.mp hb
        exact hxs (huniq a' (List.mem_cons_of_mem _ ha') hfa' ▸ ha')
      rw [List.filterMap_cons_some hfa, List.count_cons_self, hz]
    · have ha' : a ∈ xs := (List.mem_cons.mp ha).resolve_left (fun h => hx h.symm)
      have hcount' : xs.count a = 1 := by
        rwa [List.count_cons_of_ne (fun h => hx h.symm)] at hcount
      have hfx : f x ≠ some b := fun h => hx (huniq x (List.mem_cons_self x xs) h)
      have ihx := ih ha' (fun a'' ha'' => huniq a'' (List.mem_cons_of_mem _ ha''))
        hcount'
      cases hc : f x with
      | none => rwa [List.filterMap_cons_none hc]
      | some c =>
        have hcb : b ≠ c := fun h => hfx (h ▸ hc)
        rw [List.filterMap_cons_some hc, List.count_cons_of_ne hcb]
        exact ihx

lemma filterMap_erase_of_none [DecidableEq α] (f : α → Option β) (a : α)
    (hfa : f a = none) (l : List α) :
    ((l.erase a).filterMap f) = l.filterMap f := by
  induction l with
  | nil => simp
  | cons x xs ih =>
    by_cases hx : x = a
    · subst hx
      rw [List.erase_cons_head, List.filterMap_cons_none hfa]
    · rw [List.erase_cons_tail (by simpa using hx)]
      cases hc : f x with
      | none => rw [List.filterMap_cons_none hc, List.filterMap_cons_none hc, ih]
      | some c =>
        rw [List.filterMap_cons_some hc, List.filterMap_cons_some hc, ih]

lemma chunkList_nil (n : Nat) : chunkList n ([] : List α) = [] := rfl

lemma chunkFuel_congr (n : Nat) (hn : n ≠ 0) (fuel1 : Nat) :
    ∀ fuel2 (l : List α), l.length ≤ fuel1 → l.length ≤ fuel2 →
      chunkFuel n fuel1 l = chunkFuel n fuel2 l := by
  induction fuel1 with
  | zero =>
    intro fuel2 l h1 _
    have : l = [] := List.eq_nil_of_length_eq_zero (Nat.le_zero.mp h1)
    subst this
    cases fuel2 <;> rfl
  | succ f ih =>
    intro fuel2 l h1 h2
    cases l with
    | nil => cases fuel2 <;> rfl
    | cons a rest =>
      cases fuel2 with
      | zero => simp at h2
      | succ f2 =>
        simp only [chunkFuel, List.cons.injEq, true_and]
        apply ih
        · simp only [List.length_drop, List.length_cons]
          simp only [List.length_cons] at h1
          have := Nat.pos_of_ne_zero hn
          omega
        · simp only [List.length_drop, List.length_cons]
          simp only [List.length_cons] at h2
          have := Nat.pos_of_ne_zero hn
          omega

lemma chunkList_cons (n : Nat) (a : α) (rest : List α) (hn : n ≠ 0) :
    chunkList n (a :: rest) =
      (a :: rest).take n :: chunkList n ((a :: rest).drop n) := by
  show chunkFuel n (rest.length + 1) (a :: rest) = _
  simp only [chunkFuel, List.cons.injEq, true_and]
  apply chunkFuel_congr n hn
  · simp only [List.length_drop, List.length_cons]
    have := Nat.pos_of_ne_zero hn
    omega
  · exact le_rfl

lemma chunkList_ne_nil (n : Nat) (l : List α) (hl : l ≠ []) (hn : n ≠ 0) :
    chunkList n l = l.take n :: chunkList n (l.drop n) := by
  cases l with
  | nil => exact absurd rfl hl
  | cons a rest => exact chunkList_cons n a rest hn

lemma chunkList_flatten_aux (n : Nat) (hn : n ≠ 0) (m : Nat) :
    ∀ l : List α, l.length ≤ m → (chunkList n l).flatten = l := by
  induction m with
  | zero =>
    intro l hl
    have : l = [] := List.eq_nil_of_length_eq_zero (Nat.le_zero.mp hl)
    subst this
    rfl
  | succ m ih =>
    intro l hl
    cases l with
    | nil => rfl
    | cons a rest =>
      have hlen : ((a :: rest).drop n).length ≤ m := by
        simp only [List.length_drop, List.length_cons]
        simp only [List.length_cons] at hl
        have := Nat.pos_of_ne_zero hn
        omega
      rw [chunkList_cons n a rest hn, List.flatten_cons, ih ((a :: rest).drop n) hlen,
        List.take_append_drop]

/-- `chunk` loses and duplicates nothing: concatenating the batches gives
back the original sequence. -/
lemma chunkList_flatten (n : Nat) (hn : n ≠ 0) (l : List α) :
    (chunkList n l).flatten = l :=
  chunkList_flatten_aux n hn l.length l le_rfl

lemma chunkFuel_le (n : Nat) (fuel : Nat) :
    ∀ l : List α, ∀ b ∈ chunkFuel n fuel l, b.length ≤ n := by
  induction fuel with
  | zero =>
    intro l b hb
    cases l <;> cases hb
  | succ f ih =>
    intro l b hb
    cases l with
    | nil => cases hb
    | cons a rest =>
      rcases List.mem_cons.mp hb with h | h
      · subst h
        simp
      · exact ih ((a :: rest).drop n) b h

/-- Every batch produced by `chunk` has at most `n` elements. -/
lemma chunkList_le (n : Nat) (l : List α) :
    ∀ b ∈ chunkList n l, b.length ≤ n :=
  chunkFuel_le n l.length l

lemma runBatches_all_ok (status : Nat → Nat) (batches : List (List α)) (i : Nat)
    (h : ∀ j, j < batches.length → is_http_error (status (i + j)) = false) :
    runBatches status batches i = ((batches.map List.length).sum, none) := by
  induction batches generalizing i with
  | nil => simp [runBatches]
  | cons b bs ih =>
    have h0 : is_http_error (status i) = false := by
      simpa using h 0 (Nat.succ_pos _)
    have hrest : ∀ j, j < bs.length → is_http_error (status (i + 1 + j)) = false := by
      intro j hj
      have := h (j + 1) (by simpa using Nat.succ_lt_succ hj)
      have harg : i + (j + 1) = i + 1 + j := by omega
      rwa [harg] at this
    simp only [runBatches, h0, Bool.false_eq_true, if_false, ih (i + 1) hrest,
      List.map_cons, List.sum_cons]

lemma runBatches_stop (status : Nat → Nat) (batches : List (List α)) (i k : Nat)
    (hk : k < batches.length)
    (hfail : is_http_error (status (i + k)) = true)
    (hok : ∀ j, j < k → is_http_error (status (i + j)) = false) :
    runBatches status batches i =
      (((batches.take k).map List.length).sum, some ⟨status (i + k)⟩) := by
  induction batches generalizing i k with
  | nil => exact absurd hk (Nat.not_lt_zero k)
  | cons b bs ih =>
    cases k with
    | zero =>
      have hfail' : is_http_error (status i) = true := by simpa using hfail
      simp [runBatches, hfail']
    | succ k' =>
      have h0 : is_http_error (status i) = false := by
        simpa using hok 0 (Nat.succ_pos _)
      have harg : i + (k' + 1) = i + 1 + k' := by omega
      rw [harg] at hfail
      have hok' : ∀ j, j < k' → is_http_error (status (i + 1 + j)) = false := by
        intro j hj
        have := hok (j + 1) (Nat.succ_lt_succ hj)
        have harg' : i + (j + 1) = i + 1 + j := by omega
        rwa [harg'] at this
      have := ih (i + 1) k' (Nat.lt_of_succ_lt_succ hk) hfail hok'
      simp only [runBatches, h0, Bool.false_eq_true, if_false, this,
        List.take_succ_cons, List.map_cons, List.sum_cons]
      rw [harg]

/-! ### Claims -/

/-- C3: the claim says the Issue Source fetches the full issue list exactly
once per run.  The code calls `repo.get_issues(state="all")` twice — once
for the per-issue logging loop and once more to build the records — so the
fetch counter advances by two, not one. -/
theorem c3_fetches_twice (repo : List Issue) (fetches : Nat) :
    (collect_github_issues repo fetches).2 = fetches + 2 := rfl

/-- C4 counterexample: presenting the same two issues (against the same
empty index) in the opposite iteration order yields a different plan —
`to_add` is built in iteration order, so the two plans list the insert rows
in opposite orders and are not identical. -/
theorem c4_counterexample :
    plan ⟨1, 2, 3⟩ [⟨1, "a", "open"⟩, ⟨2, "b", "open"⟩] (fun _ => none) ≠
      plan ⟨1, 2, 3⟩ [⟨2, "b", "open"⟩, ⟨1, "a", "open"⟩] (fun _ => none) := by
  decide

/-- C4 (amended): planning is a pure function of the issue sequence and the
index (no randomness, no index mutation); presenting the same issues in a
different iteration order yields a plan whose `toInsert` and `toUpdate` are
permutations of the originals — equal as multisets though not necessarily
as sequences. -/
theorem c4_order_permutes (ids : ColIds) (index : Key → Option Entry)
    (issues1 issues2 : List Issue) (hperm : issues1.Perm issues2) :
    (plan ids issues1 index).toInsert.Perm (plan ids issues2 index).toInsert ∧
      (plan ids issues1 index).toUpdate.Perm (plan ids issues2 index).toUpdate := by
  rw [plan_eq, plan_eq]
  exact ⟨hperm.filterMap _, hperm.filterMap _⟩

/-- C4 witness: the permutation property at the concrete counterexample
inputs. -/
theorem c4_order_permutes_witness :
    ([⟨1, "a", "open"⟩, ⟨2, "b", "open"⟩] : List Issue).Perm
        [⟨2, "b", "open"⟩, ⟨1, "a", "open"⟩] ∧
      ((plan ⟨1, 2, 3⟩ [⟨1, "a", "open"⟩, ⟨2, "b", "open"⟩] (fun _ => none)).toInsert.Perm
          (plan ⟨1, 2, 3⟩ [⟨2, "b", "open"⟩, ⟨1, "a", "open"⟩] (fun _ => none)).toInsert ∧
        (plan ⟨1, 2, 3⟩ [⟨1, "a", "open"⟩, ⟨2, "b", "open"⟩] (fun _ => none)).toUpdate.Perm
          (plan ⟨1, 2, 3⟩ [⟨2, "b", "open"⟩, ⟨1, "a", "open"⟩] (fun _ => none)).toUpdate) :=
  ⟨by decide, c4_order_permutes ⟨1, 2, 3⟩ (fun _ => none) _ _ (by decide)⟩

/-- C5: the writer splits the pending lists into batches of at most 300;
650 pending inserts give exactly 3 requests of sizes 300, 300, 50, and
concatenating the batches returns the original pending list (no row dropped
or duplicated) — likewise for any update list. -/
theorem c5_batching (p : SyncPlan) (h : p.toInsert.length = 650) :
    (chunkList 300 p.toInsert).length = 3 ∧
      (chunkList 300 p.toInsert).map List.length = [300, 300, 50] ∧
      (chunkList 300 p.toInsert).flatten = p.toInsert ∧
      (∀ b ∈ chunkList 300 p.toInsert, b.length ≤ 300) ∧
      (∀ q : List UpdateRow,
        (chunkList 300 q).flatten = q ∧ ∀ b ∈ chunkList 300 q, b.length ≤ 300) := by
  have h300 : (300 : Nat) ≠ 0 := by omega
  set l := p.toInsert with hl
  have hne1 : l ≠ [] := by
    intro hnil
    rw [hnil] at h
    simp at h
  have hlen2 : (l.drop 300).length = 350 := by
    simp [List.length_drop, h]
  have hne2 : l.drop 300 ≠ [] := by
    intro hnil
    rw [hnil] at hlen2
    simp at hlen2
  have hlen3 : ((l.drop 300).drop 300).length = 50 := by
    simp [List.length_drop, h]
  have hne3 : (l.drop 300).drop 300 ≠ [] := by
    intro hnil
    rw [hnil] at hlen3
    simp at hlen3
  have hnil4 : ((l.drop 300).drop 300).drop 300 = [] := by
    apply List.eq_nil_of_length_eq_zero
    simp [List.length_drop, h]
  have hexp : chunkList 300 l =
      [l.take 300, (l.drop 300).take 300, ((l.drop 300).drop 300).take 300] := by
    rw [chunkList_ne_nil 300 l hne1 h300, chunkList_ne_nil 300 (l.drop 300) hne2 h300,
      chunkList_ne_nil 300 ((l.drop 300).drop 300) hne3 h300, hnil4, chunkList_nil]
  refine ⟨by rw [hexp]; rfl, ?_, chunkList_flatten 300 h300 l, chunkList_le 300 l,
    fun q => ⟨chunkList_flatten 300 h300 q, chunkList_le 300 q⟩⟩
  rw [hexp]
  simp [List.length_take, List.length_drop, h]

/-- C5 witness: a concrete plan with 650 pending inserts. -/
theorem c5_batching_witness :
    ((SyncPlan.mk ((List.range 650).map (fun _ => ⟨[]⟩)) []).toInsert.length = 650) ∧
      ((chunkList 300 (SyncPlan.mk ((List.range 650).map (fun _ => ⟨[]⟩)) []).toInsert).length = 3 ∧
        (chunkList 300 (SyncPlan.mk ((List.range 650).map (fun _ => ⟨[]⟩)) []).toInsert).map
            List.length = [300, 300, 50] ∧
        (chunkList 300 (SyncPlan.mk ((List.range 650).map (fun _ => ⟨[]⟩)) []).toInsert).flatten =
          (SyncPlan.mk ((List.range 650).map (fun _ => ⟨[]⟩)) []).toInsert ∧
        (∀ b ∈ chunkList 300 (SyncPlan.mk ((List.range 650).map (fun _ => ⟨[]⟩)) []).toInsert,
          b.length ≤ 300) ∧
        (∀ q : List UpdateRow,
          (chunkList 300 q).flatten = q ∧ ∀ b ∈ chunkList 300 q, b.length ≤ 300)) :=
  ⟨by simp only [List.length_map, List.length_range],
    c5_batching (SyncPlan.mk ((List.range 650).map (fun _ => ⟨[]⟩)) [])
      (by simp only [List.length_map, List.length_range])⟩

/-- C2 counterexample: the surfaced error does not report how many rows were
committed.  Two runs of the writer over the same two single-row insert
batches — one failing at the first request (0 rows committed), one failing
at the second (1 row committed) — surface the *same* error value, so the
committed count cannot be recovered from what is surfaced. -/
theorem c2_counterexample :
    (apply_writes (fun _ => 500) 1 ⟨[⟨[]⟩, ⟨[]⟩], []⟩).2.2 =
        (apply_writes (fun i => if i = 0 then 200 else 500) 1 ⟨[⟨[]⟩, ⟨[]⟩], []⟩).2.2 ∧
      (apply_writes (fun _ => 500) 1 ⟨[⟨[]⟩, ⟨[]⟩], []⟩).1 ≠
        (apply_writes (fun i => if i = 0 then 200 else 500) 1 ⟨[⟨[]⟩, ⟨[]⟩], []⟩).1 := by
  decide

/-- C2 (amended): on any insert or update batch failure the run aborts at
the first failing request; the rows already committed are exactly those of
the prior successful batches (partial application is real), but the
surfaced error is `raise_for_status()`'s `HTTPError` carrying only the
failing response's status — it does not report the committed row count. -/
theorem c2_abort_on_failure (status : Nat → Nat) (bs : Nat) (p : SyncPlan) (k : Nat) :
    (k < (chunkList bs p.toInsert).length →
      is_http_error (status k) = true →
      (∀ j, j < k → is_http_error (status j) = false) →
      apply_writes status bs p =
        ((((chunkList bs p.toInsert).take k).map List.length).sum, 0,
          some ⟨status k⟩)) ∧
    (0 < bs →
      (∀ j, j < (chunkList bs p.toInsert).length → is_http_error (status j) = false) →
      k < (chunkList bs p.toUpdate).length →
      is_http_error (status ((chunkList bs p.toInsert).length + k)) = true →
      (∀ j, j < k →
        is_http_error (status ((chunkList bs p.toInsert).length + j)) = false) →
      apply_writes status bs p =
        (p.toInsert.length,
          (((chunkList bs p.toUpdate).take k).map List.length).sum,
          some ⟨status ((chunkList bs p.toInsert).length + k)⟩)) := by
  constructor
  · intro hk hfail hok
    have hstop := runBatches_stop status (chunkList bs p.toInsert) 0 k hk
      (by simpa using hfail) (by intro j hj; simpa using hok j hj)
    simp only [Nat.zero_add] at hstop
    simp only [apply_writes, hstop]
  · intro hbs hins hk hfail hok
    have hall := runBatches_all_ok status (chunkList bs p.toInsert) 0
      (by intro j hj; simpa using hins j hj)
    have hstop := runBatches_stop status (chunkList bs p.toUpdate)
      (chunkList bs p.toInsert).length k hk hfail hok
    have hsum : ((chunkList bs p.toInsert).map List.length).sum = p.toInsert.length := by
      rw [← List.length_flatten, chunkList_flatten bs (by omega) p.toInsert]
    simp only [apply_writes, hall, hstop, hsum]

/-- C2 witness: one insert batch whose request fails with HTTP 500; the run
aborts with zero rows committed and the surfaced error is `⟨500⟩`. -/
theorem c2_abort_on_failure_witness :
    (0 < (chunkList 1 (SyncPlan.mk [⟨[]⟩] []).toInsert).length) ∧
      is_http_error 500 = true ∧
      apply_writes (fun _ => 500) 1 ⟨[⟨[]⟩], []⟩ =
        ((((chunkList 1 (SyncPlan.mk [⟨[]⟩] []).toInsert).take 0).map List.length).sum, 0,
          some ⟨500⟩) :=
  ⟨by decide, by decide,
    (c2_abort_on_failure (fun _ => 500) 1 ⟨[⟨[]⟩], []⟩ 0).1 (by decide) (by decide)
      (fun j hj => absurd hj (by omega))⟩

lemma status_differs_self (s : String) : status_differs (.vStr s) s = false := by
  simp [status_differs, pyStr]

/-- C7: if the second run's index reflects the first run's writes — every
issue whose key was absent is now present with the inserted state as status,
every updated row's status is the new state, and untouched entries are
unchanged — then the second run's plan is empty. -/
theorem c7_idempotent (ids : ColIds) (index1 index2 : Key → Option Entry)
    (issues : List Issue)
    (hins : ∀ it ∈ issues, index1 (issueKey it) = none →
      ∃ rid, index2 (issueKey it) = some ⟨rid, .vStr it.state⟩)
    (hupd : ∀ it ∈ issues, ∀ e, index1 (issueKey it) = some e →
      status_differs e.status it.state = true →
      ∃ rid, index2 (issueKey it) = some ⟨rid, .vStr it.state⟩)
    (hsame : ∀ it ∈ issues, ∀ e, index1 (issueKey it) = some e →
      status_differs e.status it.state = false →
      index2 (issueKey it) = index1 (issueKey it)) :
    plan ids issues index2 = ⟨[], []⟩ := by
  rw [plan_eq]
  have hsel : ∀ it ∈ issues,
      insSel ids index2 it = none ∧ updSel ids index2 it = none := by
    intro it hit
    cases h1 : index1 (issueKey it) with
    | none =>
      obtain ⟨rid, h2⟩ := hins it hit h1
      exact ⟨by simp [insSel, h2], by simp [updSel, h2, status_differs_self]⟩
    | some e =>
      cases hd : status_differs e.status it.state with
      | true =>
        obtain ⟨rid, h2⟩ := hupd it hit e h1 hd
        exact ⟨by simp [insSel, h2], by simp [updSel, h2, status_differs_self]⟩
      | false =>
        have h2 := hsame it hit e h1 hd
        rw [h1] at h2
        exact ⟨by simp [insSel, h2], by simp [updSel, h2, hd]⟩
  have hi : issues.filterMap (insSel ids index2) = [] :=
    List.filterMap_eq_nil_iff.mpr (fun it hit => (hsel it hit).1)
  have hu : issues.filterMap (updSel ids index2) = [] :=
    List.filterMap_eq_nil_iff.mpr (fun it hit => (hsel it hit).2)
  rw [hi, hu]

/-- C7 witness: one issue inserted by the first run; with the second index
holding its key with the inserted state, the second plan is empty. -/
theorem c7_idempotent_witness :
    (∀ it ∈ [(⟨1, "a", "open"⟩ : Issue)],
      (fun _ => (none : Option Entry)) (issueKey it) = none →
      ∃ rid, (fun k => if k = issueKey (⟨1, "a", "open"⟩ : Issue) then
          some (⟨1, .vStr "open"⟩ : Entry) else none) (issueKey it) =
        some ⟨rid, .vStr it.state⟩) ∧
    plan ⟨1, 2, 3⟩ [⟨1, "a", "open"⟩]
      (fun k => if k = issueKey (⟨1, "a", "open"⟩ : Issue) then
        some (⟨1, .vStr "open"⟩ : Entry) else none) = ⟨[], []⟩ := by
  have hins : ∀ it ∈ [(⟨1, "a", "open"⟩ : Issue)],
      (fun _ => (none : Option Entry)) (issueKey it) = none →
      ∃ rid, (fun k => if k = issueKey (⟨1, "a", "open"⟩ : Issue) then
          some (⟨1, .vStr "open"⟩ : Entry) else none) (issueKey it) =
        some ⟨rid, .vStr it.state⟩ := by
    intro it hit _
    rcases List.mem_singleton.mp hit with rfl
    exact ⟨1, by simp⟩
  refine ⟨hins, c7_idempotent ⟨1, 2, 3⟩ (fun _ => none) _ _ hins ?_ ?_⟩
  · intro it _ e h1
    exact absurd h1 (by simp)
  · intro it _ e h1
    exact absurd h1 (by simp)

/-- C8: the index builder's effective cell value is the raw `value` when
that key is present, else the `displayValue`; and the per-row extraction
applies it to each of the three managed columns. -/
theorem c8_cell_extraction (ids : ColIds) (c1 c2 c3 : Cell)
    (h1 : c1.columnId = some ids.issueNumber)
    (h2 : c2.columnId = some ids.title)
    (h3 : c3.columnId = some ids.status)
    (d12 : ids.issueNumber ≠ ids.title)
    (d13 : ids.issueNumber ≠ ids.status)
    (d23 : ids.title ≠ ids.status) :
    extractRow ids [c1, c2, c3] = (cell_value c1, cell_value c2, cell_value c3) ∧
      (∀ c : Cell, ∀ v, c.value = some v → cell_value c = v) ∧
      (∀ c : Cell, c.value = none → ∀ d, c.displayValue = some d → cell_value c = d) := by
  refine ⟨?_, ?_, ?_⟩
  · simp [extractRow, h1, h2, h3, Ne.symm d12, Ne.symm d13, Ne.symm d23]
  · intro c v hv
    simp [cell_value, hv]
  · intro c hv d hd
    simp [cell_value, hv, hd]

/-- C8 witness: three concrete cells — a raw numeric value, a cell where a
display value coexists with the raw one (raw wins), and a status cell with
only a display value (display value used). -/
theorem c8_cell_extraction_witness :
    ((⟨some 1, some (.vInt 42), none⟩ : Cell).columnId =
        some (ColIds.mk 1 2 3).issueNumber) ∧
      extractRow ⟨1, 2, 3⟩
          [⟨some 1, some (.vInt 42), none⟩,
           ⟨some 2, some (.vStr "t"), some (.vStr "shown")⟩,
           ⟨some 3, none, some (.vStr "open")⟩] =
        (cell_value ⟨some 1, some (.vInt 42), none⟩,
         cell_value ⟨some 2, some (.vStr "t"), some (.vStr "shown")⟩,
         cell_value ⟨some 3, none, some (.vStr "open")⟩) :=
  ⟨rfl,
    (c8_cell_extraction ⟨1, 2, 3⟩ _ _ _ rfl rfl rfl (by decide) (by decide)
      (by decide)).1⟩

/-- C9: a matched row whose Status cell was absent or null enters the
comparison as `str(None) = "None"`, lowercased to `"none"`: an update is
produced exactly when the issue's state differs case-insensitively from
`"none"`. -/
theorem c9_null_status (ids : ColIds) (index : Key → Option Entry)
    (it : Issue) (rid : Int)
    (hidx : index (issueKey it) = some ⟨rid, .vNone⟩) :
    (status_differs .vNone it.state = true ↔ pyLower it.state ≠ "none") ∧
      plan ids [it] index =
        (if pyLower it.state ≠ "none" then
          SyncPlan.mk [] [mkUpdateRow ids rid it.state]
        else SyncPlan.mk [] []) := by
  have hNone : pyLower "None" = "none" := by decide
  have hiff : status_differs .vNone it.state = true ↔ pyLower it.state ≠ "none" := by
    simp only [status_differs, pyStr, hNone, decide_eq_true_eq]
    exact ne_comm
  refine ⟨hiff, ?_⟩
  by_cases hs : pyLower it.state = "none"
  · have hb : status_differs .vNone it.state = false := by
      cases hb : status_differs .vNone it.state with
      | false => rfl
      | true => exact absurd hs (hiff.mp hb)
    simp [plan, planStep, hidx, hb, hs]
  · have hb : status_differs .vNone it.state = true := hiff.mpr hs
    simp [plan, planStep, hidx, hb, hs]

/-- C9 witness: a row with a null status and an issue state of `"NONE"`
produces no update (the comparison is case-insensitive), while state
`"closed"` would differ from `"none"`. -/
theorem c9_null_status_witness :
    ((fun k => if k = issueKey (⟨7, "t", "NONE"⟩ : Issue) then
        some (⟨5, .vNone⟩ : Entry) else none) (issueKey (⟨7, "t", "NONE"⟩ : Issue)) =
      some ⟨5, .vNone⟩) ∧
      ((status_differs .vNone (Issue.mk 7 "t" "NONE").state = true ↔
          pyLower (Issue.mk 7 "t" "NONE").state ≠ "none") ∧
        plan ⟨1, 2, 3⟩ [⟨7, "t", "NONE"⟩]
            (fun k => if k = issueKey (⟨7, "t", "NONE"⟩ : Issue) then
              some (⟨5, .vNone⟩ : Entry) else none) =
          (if pyLower (Issue.mk 7 "t" "NONE").state ≠ "none" then
            SyncPlan.mk [] [mkUpdateRow ⟨1, 2, 3⟩ 5 (Issue.mk 7 "t" "NONE").state]
          else SyncPlan.mk [] [])) :=
  ⟨by simp, c9_null_status ⟨1, 2, 3⟩ _ ⟨7, "t", "NONE"⟩ 5 (by simp)⟩

/-- C6 counterexample: a result envelope wrapping an *empty* list matches
none of the three tolerated shapes, yet the code raises `IndexError` from
`res[0]` instead of the `ValueError` that plays the SchemaError role. -/
theorem c6_counterexample :
    extract_id (.jobj [("result", .jarr [])]) = .error .indexError ∧
      PyError.indexError ≠ PyError.valueError := by
  exact ⟨rfl, by decide⟩

/-- C6 (amended): `extract_id` returns the created column's id for the
three tolerated response shapes (result-wrapped object, result-wrapped
non-empty list, direct object), and raises `ValueError` for a non-dict
response or a dict carrying neither `result` nor `id`; but a malformed
`result` envelope — e.g. one wrapping an empty list — raises `IndexError`
(or `KeyError`/`TypeError`) rather than the SchemaError `ValueError`. -/
theorem c6_shape_tolerance (kvsEnv kvs : List (String × Json)) (v : Json)
    (rest : List Json) (s : String)
    (hid : jlookup kvs "id" = some v) :
    (jlookup kvsEnv "result" = some (.jobj kvs) →
      extract_id (.jobj kvsEnv) = .ok v) ∧
    (jlookup kvsEnv "result" = some (.jarr (.jobj kvs :: rest)) →
      extract_id (.jobj kvsEnv) = .ok v) ∧
    (jlookup kvsEnv "result" = none → jlookup kvsEnv "id" = some v →
      extract_id (.jobj kvsEnv) = .ok v) ∧
    (extract_id (.jstr s) = .error .valueError) ∧
    (jlookup kvsEnv "result" = none → jlookup kvsEnv "id" = none →
      extract_id (.jobj kvsEnv) = .error .valueError) ∧
    (jlookup kvsEnv "result" = some (.jarr []) →
      extract_id (.jobj kvsEnv) = .error .indexError) := by
  refine ⟨?_, ?_, ?_, rfl, ?_, ?_⟩
  · intro hres
    simp [extract_id, hres, hid]
  · intro hres
    simp [extract_id, hres, hid]
  · intro hres hid2
    simp [extract_id, hres, hid2]
  · intro hres hid2
    simp [extract_id, hres, hid2]
  · intro hres
    simp [extract_id, hres]

/-- C6 witness: a concrete envelope `{"result": {"id": 7}}` yields id 7. -/
theorem c6_shape_tolerance_witness :
    (jlookup [("id", Json.jnum 7)] "id" = some (Json.jnum 7)) ∧
      ((jlookup [("result", Json.jobj [("id", Json.jnum 7)])] "result" =
          some (.jobj [("id", Json.jnum 7)]) →
        extract_id (.jobj [("result", Json.jobj [("id", Json.jnum 7)])]) =
          .ok (Json.jnum 7)) ∧
      (jlookup [("result", Json.jobj [("id", Json.jnum 7)])] "result" =
          some (.jarr (.jobj [("id", Json.jnum 7)] :: [])) →
        extract_id (.jobj [("result", Json.jobj [("id", Json.jnum 7)])]) =
          .ok (Json.jnum 7)) ∧
      (jlookup [("result", Json.jobj [("id", Json.jnum 7)])] "result" = none →
        jlookup [("result", Json.jobj [("id", Json.jnum 7)])] "id" =
          some (Json.jnum 7) →
        extract_id (.jobj [("result", Json.jobj [("id", Json.jnum 7)])]) =
          .ok (Json.jnum 7)) ∧
      (extract_id (.jstr "oops") = .error .valueError) ∧
      (jlookup [("result", Json.jobj [("id", Json.jnum 7)])] "result" = none →
        jlookup [("result", Json.jobj [("id", Json.jnum 7)])] "id" = none →
        extract_id (.jobj [("result", Json.jobj [("id", Json.jnum 7)])]) =
          .error .valueError) ∧
      (jlookup [("result", Json.jobj [("id", Json.jnum 7)])] "result" =
          some (.jarr []) →
        extract_id (.jobj [("result", Json.jobj [("id", Json.jnum 7)])]) =
          .error .indexError)) :=
  ⟨rfl, c6_shape_tolerance [("result", Json.jobj [("id", Json.jnum 7)])]
    [("id", Json.jnum 7)] (Json.jnum 7) [] "oops" rfl⟩

lemma foldl_indexStep_no_key (ids : ColIds) (rows : List Row) (k : Key)
    (hnone : ∀ r' ∈ rows, ∀ p, rowToEntry ids r' = some p → p.1 ≠ k) :
    ∀ idx : Key → Option Entry, (rows.foldl (indexStep ids) idx) k = idx k := by
  induction rows with
  | nil => intro idx; rfl
  | cons r rs ih =>
    intro idx
    rw [List.foldl_cons]
    rw [ih (fun r' hr' => hnone r' (List.mem_cons_of_mem _ hr'))]
    unfold indexStep
    cases hr : rowToEntry ids r with
    | none => rfl
    | some p =>
      obtain ⟨k', e'⟩ := p
      have hne : k ≠ k' := fun h =>
        hnone r (List.mem_cons_self r rs) (k', e') hr (h ▸ rfl)
      simp [hne]

/-- C10: when several sheet rows share the same `(issue number, title)` key,
the dict built by `build_sheet_index` keeps the last such row in sheet
order, and reconciling an issue with that key produces at most one update,
targeting the last row's id — the earlier duplicates are never updated. -/
theorem c10_last_wins (ids : ColIds) (rows1 rows2 : List Row) (r : Row)
    (k : Key) (e : Entry) (it : Issue)
    (hk : rowToEntry ids r = some (k, e))
    (hlast : ∀ r' ∈ rows2, ∀ p, rowToEntry ids r' = some p → p.1 ≠ k)
    (hkey : issueKey it = k) :
    build_sheet_index (rows1 ++ r :: rows2) ids k = some e ∧
      plan ids [it] (build_sheet_index (rows1 ++ r :: rows2) ids) =
        (if status_differs e.status it.state then
          SyncPlan.mk [] [mkUpdateRow ids e.rowId it.state]
        else SyncPlan.mk [] []) := by
  have h1 : build_sheet_index (rows1 ++ r :: rows2) ids k = some e := by
    unfold build_sheet_index
    rw [List.foldl_append, List.foldl_cons,
      foldl_indexStep_no_key ids rows2 k hlast]
    simp [indexStep, hk]
  refine ⟨h1, ?_⟩
  cases hd : status_differs e.status it.state <;>
    simp [plan, planStep, hkey, h1, hd]

/-- C10 witness: two rows with the key `(5, "t")` — statuses `"open"` (row
10) and `"closed"` (row 20) — index to the later row 20; an issue in state
`"open"` produces exactly one update, targeting row 20. -/
theorem c10_last_wins_witness :
    (rowToEntry ⟨1, 2, 3⟩
        ⟨20, [⟨some 1, some (.vInt 5), none⟩, ⟨some 2, some (.vStr "t"), none⟩,
              ⟨some 3, some (.vStr "closed"), none⟩]⟩ =
      some ((NumKey.int 5, "t"), ⟨20, .vStr "closed"⟩)) ∧
      (build_sheet_index
          [⟨10, [⟨some 1, some (.vInt 5), none⟩, ⟨some 2, some (.vStr "t"), none⟩,
                 ⟨some 3, some (.vStr "open"), none⟩]⟩,
           ⟨20, [⟨some 1, some (.vInt 5), none⟩, ⟨some 2, some (.vStr "t"), none⟩,
                 ⟨some 3, some (.vStr "closed"), none⟩]⟩] ⟨1, 2, 3⟩
          (NumKey.int 5, "t") = some ⟨20, .vStr "closed"⟩ ∧
        plan ⟨1, 2, 3⟩ [⟨5, "t", "open"⟩]
            (build_sheet_index
              [⟨10, [⟨some 1, some (.vInt 5), none⟩, ⟨some 2, some (.vStr "t"), none⟩,
                     ⟨some 3, some (.vStr "open"), none⟩]⟩,
               ⟨20, [⟨some 1, some (.vInt 5), none⟩, ⟨some 2, some (.vStr "t"), none⟩,
                     ⟨some 3, some (.vStr "closed"), none⟩]⟩] ⟨1, 2, 3⟩) =
          (if status_differs (Entry.mk 20 (.vStr "closed")).status
              (Issue.mk 5 "t" "open").state then
            SyncPlan.mk [] [mkUpdateRow ⟨1, 2, 3⟩ (Entry.mk 20 (.vStr "closed")).rowId
              (Issue.mk 5 "t" "open").state]
          else SyncPlan.mk [] [])) :=
  ⟨by decide,
    c10_last_wins ⟨1, 2, 3⟩
      [⟨10, [⟨some 1, some (.vInt 5), none⟩, ⟨some 2, some (.vStr "t"), none⟩,
             ⟨some 3, some (.vStr "open"), none⟩]⟩] []
      ⟨20, [⟨some 1, some (.vInt 5), none⟩, ⟨some 2, some (.vStr "t"), none⟩,
            ⟨some 3, some (.vStr "closed"), none⟩]⟩
      (NumKey.int 5, "t") ⟨20, .vStr "closed"⟩ ⟨5, "t", "open"⟩
      (by decide) (fun r' hr' => absurd hr' (List.not_mem_nil r')) rfl⟩

/-- C1: reconciler classification.  For an issue among the run's issues
(with pairwise-distinct keys, and an index assigning distinct rows to
distinct keys): if its key is absent from the index the plan holds exactly
one insert row for it — carrying its current state as the Status value —
and removing the issue leaves `toUpdate` unchanged (it contributes no
update); if the key is present with a case-insensitively different status
the plan holds exactly one update targeting that row's id whose cells are
only the Status cell, and removing the issue leaves `toInsert` unchanged;
if the key is present with an equal status the issue contributes to neither
list. -/
theorem c1_classification (ids : ColIds) (index : Key → Option Entry)
    (issues : List Issue) (it : Issue)
    (hmem : it ∈ issues)
    (hnodup : (issues.map issueKey).Nodup)
    (hinj : ∀ k1 k2 e1 e2, index k1 = some e1 → index k2 = some e2 →
      e1.rowId = e2.rowId → k1 = k2) :
    (index (issueKey it) = none →
      (plan ids issues index).toInsert.count (mkInsertRow ids it) = 1 ∧
      (plan ids (issues.erase it) index).toUpdate =
        (plan ids issues index).toUpdate) ∧
    (∀ e, index (issueKey it) = some e →
      status_differs e.status it.state = true →
      (plan ids issues index).toUpdate.count (mkUpdateRow ids e.rowId it.state) = 1 ∧
      (mkUpdateRow ids e.rowId it.state).cells = [⟨ids.status, .vStr it.state⟩] ∧
      (plan ids (issues.erase it) index).toInsert =
        (plan ids issues index).toInsert) ∧
    (∀ e, index (issueKey it) = some e →
      status_differs e.status it.state = false →
      plan ids (issues.erase it) index = plan ids issues index) := by
  have hnd : issues.Nodup := hnodup.of_map
  have hcount : issues.count it = 1 := List.count_eq_one_of_mem hnd hmem
  have keyinj := List.inj_on_of_nodup_map hnodup
  refine ⟨?_, ?_, ?_⟩
  · intro h0
    constructor
    · rw [plan_eq]
      apply count_filterMap_eq_one (insSel ids index) (mkInsertRow ids it)
        issues it hmem (by simp [insSel, h0]) ?_ hcount
      intro a' ha' h'
      unfold insSel at h'
      cases hidx : index (issueKey a') with
      | none =>
        rw [hidx] at h'
        simp only [Option.some.injEq] at h'
        exact mkInsertRow_inj ids h'
      | some e' =>
        rw [hidx] at h'
        cases h'
    · rw [plan_eq, plan_eq]
      exact filterMap_erase_of_none (updSel ids index) it
        (by simp [updSel, h0]) issues
  · intro e he hd
    refine ⟨?_, rfl, ?_⟩
    · rw [plan_eq]
      apply count_filterMap_eq_one (updSel ids index)
        (mkUpdateRow ids e.rowId it.state) issues it hmem
        (by simp [updSel, he, hd]) ?_ hcount
      intro a' ha' h'
      cases hidx : index (issueKey a') with
      | none => simp [updSel, hidx] at h'
      | some e' =>
        cases hd' : status_differs e'.status a'.state with
        | false => simp [updSel, hidx, hd'] at h'
        | true =>
          simp only [updSel, hidx, hd', if_true, Option.some.injEq] at h'
          obtain ⟨hrow, hstate⟩ := mkUpdateRow_inj ids h'
          have hkeq : issueKey a' = issueKey it :=
            hinj (issueKey a') (issueKey it) e' e hidx he hrow
          exact keyinj ha' hmem hkeq
    · rw [plan_eq, plan_eq]
      exact filterMap_erase_of_none (insSel ids index) it
        (by simp [insSel, he]) issues
  · intro e he hd
    rw [plan_eq, plan_eq,
      filterMap_erase_of_none (insSel ids index) it (by simp [insSel, he]) issues,
      filterMap_erase_of_none (updSel ids index) it (by simp [updSel, he, hd]) issues]

/-- C1 witness: two distinct issues against an empty index — the first is
absent, so the plan inserts it exactly once and it contributes no update. -/
theorem c1_classification_witness :
    ((⟨1, "a", "open"⟩ : Issue) ∈ [(⟨1, "a", "open"⟩ : Issue), ⟨2, "b", "open"⟩]) ∧
      (([(⟨1, "a", "open"⟩ : Issue), ⟨2, "b", "open"⟩].map issueKey).Nodup) ∧
      (((fun _ => (none : Option Entry)) (issueKey (⟨1, "a", "open"⟩ : Issue)) = none →
        (plan ⟨1, 2, 3⟩ [⟨1, "a", "open"⟩, ⟨2, "b", "open"⟩]
            (fun _ => none)).toInsert.count
          (mkInsertRow ⟨1, 2, 3⟩ ⟨1, "a", "open"⟩) = 1 ∧
        (plan ⟨1, 2, 3⟩ ([(⟨1, "a", "open"⟩ : Issue), ⟨2, "b", "open"⟩].erase
            ⟨1, "a", "open"⟩) (fun _ => none)).toUpdate =
          (plan ⟨1, 2, 3⟩ [⟨1, "a", "open"⟩, ⟨2, "b", "open"⟩]
            (fun _ => none)).toUpdate) ∧
      (∀ e, (fun _ => (none : Option Entry)) (issueKey (⟨1, "a", "open"⟩ : Issue)) =
          some e →
        status_differs e.status (Issue.mk 1 "a" "open").state = true →
        (plan ⟨1, 2, 3⟩ [⟨1, "a", "open"⟩, ⟨2, "b", "open"⟩]
            (fun _ => none)).toUpdate.count
          (mkUpdateRow ⟨1, 2, 3⟩ e.rowId (Issue.mk 1 "a" "open").state) = 1 ∧
        (mkUpdateRow ⟨1, 2, 3⟩ e.rowId (Issue.mk 1 "a" "open").state).cells =
          [⟨(ColIds.mk 1 2 3).status, .vStr (Issue.mk 1 "a" "open").state⟩] ∧
        (plan ⟨1, 2, 3⟩ ([(⟨1, "a", "open"⟩ : Issue), ⟨2, "b", "open"⟩].erase
            ⟨1, "a", "open"⟩) (fun _ => none)).toInsert =
          (plan ⟨1, 2, 3⟩ [⟨1, "a", "open"⟩, ⟨2, "b", "open"⟩]
            (fun _ => none)).toInsert) ∧
      (∀ e, (fun _ => (none : Option Entry)) (issueKey (⟨1, "a", "open"⟩ : Issue)) =
          some e →
        status_differs e.status (Issue.mk 1 "a" "open").state = false →
        plan ⟨1, 2, 3⟩ ([(⟨1, "a", "open"⟩ : Issue), ⟨2, "b", "open"⟩].erase
            ⟨1, "a", "open"⟩) (fun _ => none) =
          plan ⟨1, 2, 3⟩ [⟨1, "a", "open"⟩, ⟨2, "b", "open"⟩] (fun _ => none))) :=
  ⟨by decide, by decide,
    c1_classification ⟨1, 2, 3⟩ (fun _ => none)
      [⟨1, "a", "open"⟩, ⟨2, "b", "open"⟩] ⟨1, "a", "open"⟩ (by decide) (by decide)
      (fun k1 k2 e1 e2 h1 _ _ => Option.noConfusion h1)⟩

end GhSmartsheet
